import Mathlib

/-!
Shallow embedding of `thumbnail_designer.py` (a declarative thumbnail
compositor: background renderers, overlay-shape renderer, text renderer,
layer duplication, and the alpha-compositing loop), together with proofs
about the embedded definitions.

Python floats are modelled by exact rationals (`ℚ`), Python ints by `ℤ`
or `ℕ`, Python strings by `String` (or `List Char` where character-level
recursion is needed), and PIL image values by a small term algebra whose
constructors record the PIL calls the code makes.  Fallible filesystem
access is modelled by an explicit load-result map, and the one fatal path
(a missing font) by `Except`.
-/

/-- Python `int(...)` on a (rational-modelled) float: truncation toward
zero. -/
def pyInt (q : ℚ) : ℤ :=
  if q < 0 then -(Int.floor (-q)) else Int.floor q

/-- Source `clamp(value, min_value, max_value)`:
`max(min_value, min(value, max_value))`. -/
def clamp (value minValue maxValue : ℚ) : ℚ :=
  max minValue (min value maxValue)

/-- Source `hex_to_rgba(hex_color, alpha)`: the RGB triple comes from
`ImageColor.getrgb` (modelled as the already-decoded triple) and the
alpha byte is `int(clamp(alpha, 0, 1) * 255)`. -/
def hex_to_rgba (rgb : ℤ × ℤ × ℤ) (alpha : ℚ) : ℤ × ℤ × ℤ × ℤ :=
  (rgb.1, rgb.2.1, rgb.2.2, pyInt (clamp alpha 0 1 * 255))

/-- Dataclass `GradientSettings`. -/
structure GradientSettings where
  start_color : String
  end_color : String
  direction : String
deriving DecidableEq

/-- Dataclass `BackgroundSettings`. -/
structure BackgroundSettings where
  mode : String
  solid_color : String
  gradient : GradientSettings
  image_path : Option String
  blur_radius : ℚ
  brightness : ℚ
  contrast : ℚ
  saturation : ℚ
deriving DecidableEq

/-- Dataclass `ShadowSettings`. -/
structure ShadowSettings where
  enabled : Bool
  offset_x : ℤ
  offset_y : ℤ
  blur_radius : ℤ
  color : String
  opacity : ℚ
deriving DecidableEq

/-- Dataclass `StrokeSettings`. -/
structure StrokeSettings where
  width : ℤ
  color : String
deriving DecidableEq

/-- Dataclass `TextLayer`. -/
structure TextLayer where
  id : String
  label : String
  text : String
  font_file : String
  font_size : ℤ
  color : String
  align : String
  position_x : ℚ
  position_y : ℚ
  max_width : ℚ
  tracking : ℤ
  rotation : ℚ
  shadow : ShadowSettings
  stroke : StrokeSettings
deriving DecidableEq

/-- Dataclass `ImageLayer`. -/
structure ImageLayer where
  id : String
  label : String
  image_path : Option String
  scale : ℚ
  rotation : ℚ
  position_x : ℚ
  position_y : ℚ
  opacity : ℚ
  flip_horizontal : Bool
  flip_vertical : Bool
  add_shadow : Bool
  shadow_blur : ℤ
  shadow_offset_x : ℤ
  shadow_offset_y : ℤ
  shadow_opacity : ℚ
deriving DecidableEq

/-- Dataclass `OverlayLayer`. -/
structure OverlayLayer where
  id : String
  label : String
  mode : String
  color : String
  opacity : ℚ
  position_x : ℚ
  position_y : ℚ
  width : ℚ
  height : ℚ
  blur_radius : ℚ
  rotation : ℚ
  rounded : ℤ
deriving DecidableEq

/-- Source `_duplicate_text_layer`: `clone = create_text_layer(asdict(current))`
copies every field, then `clone.id = str(uuid.uuid4())` (the fresh id is a
parameter here) and `clone.label = f"{current.label} (copy)"`. -/
def duplicate_text_layer (freshId : String) (layer : TextLayer) : TextLayer :=
  { layer with id := freshId, label := layer.label ++ " (copy)" }

/-- Source `_duplicate_image_layer`: same copy-then-rename pattern. -/
def duplicate_image_layer (freshId : String) (layer : ImageLayer) : ImageLayer :=
  { layer with id := freshId, label := layer.label ++ " (copy)" }

/-- Source `_duplicate_overlay_layer`: same copy-then-rename pattern. -/
def duplicate_overlay_layer (freshId : String) (layer : OverlayLayer) : OverlayLayer :=
  { layer with id := freshId, label := layer.label ++ " (copy)" }

/-! ## Overlay (shape) renderer geometry -/

/-- The concrete draw calls made by the `banner` branch of
`_render_overlay_layer`: the rounded rectangle and the two triangles. -/
structure BannerParts where
  bannerRect : ℤ × ℤ × ℤ × ℤ
  tri1 : List (ℤ × ℤ)
  tri2 : List (ℤ × ℤ)
deriving DecidableEq

/-- Pixel width `width = int(base_width * layer.width)` in `_render_overlay_layer`. -/
def overlay_px_w (W : ℕ) (layer : OverlayLayer) : ℤ := pyInt ((W : ℚ) * layer.width)

/-- Pixel height `height = int(base_height * layer.height)`. -/
def overlay_px_h (H : ℕ) (layer : OverlayLayer) : ℤ := pyInt ((H : ℚ) * layer.height)

/-- Pixel center `x = int(base_width * layer.position_x)`. -/
def overlay_px_x (W : ℕ) (layer : OverlayLayer) : ℤ := pyInt ((W : ℚ) * layer.position_x)

/-- Pixel center `y = int(base_height * layer.position_y)`. -/
def overlay_px_y (H : ℕ) (layer : OverlayLayer) : ℤ := pyInt ((H : ℚ) * layer.position_y)

/-- Source `rect = [x - width // 2, y - height // 2, x + width // 2, y + height
// 2]` (Python `//` on ints is floor division). -/
def overlay_rect (W H : ℕ) (layer : OverlayLayer) : ℤ × ℤ × ℤ × ℤ :=
  (overlay_px_x W layer - Int.fdiv (overlay_px_w W layer) 2,
   overlay_px_y H layer - Int.fdiv (overlay_px_h H layer) 2,
   overlay_px_x W layer + Int.fdiv (overlay_px_w W layer) 2,
   overlay_px_y H layer + Int.fdiv (overlay_px_h H layer) 2)

/-- The `banner` branch of `_render_overlay_layer`: the rounded
rectangle bottom is `rect[3] - int(height * 0.25)`; `triangle_height =
int(height * 0.35)`; the two triangles as listed in the source. -/
def render_overlay_banner (W H : ℕ) (layer : OverlayLayer) : BannerParts :=
  let width := overlay_px_w W layer
  let height := overlay_px_h H layer
  let r := overlay_rect W H layer
  let th := pyInt ((height : ℚ) * (35 / 100))
  { bannerRect := (r.1, r.2.1, r.2.2.1, r.2.2.2 - pyInt ((height : ℚ) * (25 / 100)))
    tri1 := [(r.1, r.2.2.2 - th), (r.1 + Int.fdiv width 4, r.2.2.2),
             (r.1 + Int.fdiv width 2, r.2.2.2 - th)]
    tri2 := [(r.2.2.1, r.2.2.2 - th), (r.2.2.1 - Int.fdiv width 4, r.2.2.2),
             (r.2.2.1 - Int.fdiv width 2, r.2.2.2 - th)] }

/-- The fill color `_render_overlay_layer` draws every shape with:
`hex_to_rgba(layer.color, layer.opacity)` (the RGB triple decoded from
`layer.color` is abstracted as `rgb`). -/
def render_overlay_fill (rgb : ℤ × ℤ × ℤ) (layer : OverlayLayer) : ℤ × ℤ × ℤ × ℤ :=
  hex_to_rgba rgb layer.opacity

/-! ## Gradient background pixels -/

/-- One channel of the per-pixel linear interpolation:
`int(start[i] + (end[i] - start[i]) * ratio)`. -/
def gradient_channel (s e : ℤ) (r : ℚ) : ℤ :=
  pyInt ((s : ℚ) + ((e : ℚ) - (s : ℚ)) * r)

/-- The diagonal branch of `_render_gradient_background`:
`ratio = (x + y) / (base_width + base_height)`. -/
def diagonal_ratio (W H x y : ℕ) : ℚ :=
  ((x : ℚ) + (y : ℚ)) / ((W : ℚ) + (H : ℚ))

/-- The full RGBA pixel the diagonal gradient writes at `(x, y)`. -/
def diagonal_pixel (startC endC : ℤ × ℤ × ℤ × ℤ) (W H x y : ℕ) : ℤ × ℤ × ℤ × ℤ :=
  (gradient_channel startC.1 endC.1 (diagonal_ratio W H x y),
   gradient_channel startC.2.1 endC.2.1 (diagonal_ratio W H x y),
   gradient_channel startC.2.2.1 endC.2.2.1 (diagonal_ratio W H x y),
   gradient_channel startC.2.2.2 endC.2.2.2 (diagonal_ratio W H x y))

/-! ## PIL image values and the compositor -/

/-- Result of trying to load a file: the path does not exist, exists but
`Image.open` raises `OSError`, or loads fine. -/
inductive FileRes where
  | missing
  | unreadable
  | ok
deriving DecidableEq

/-- A PIL image value, recorded as the tree of PIL calls that produced
it.  Whole rendered layers appear as single constructors; their internal
geometry is modelled separately above. -/
inductive PILImg where
  | new (w h : ℕ) (color : String)
  | alphaComposite (base over : PILImg)
  | fromFile (path : String)
  | fit (i : PILImg) (w h : ℕ)
  | gaussianBlur (i : PILImg) (radius : ℚ)
  | enhanceBrightness (i : PILImg) (factor : ℚ)
  | enhanceContrast (i : PILImg) (factor : ℚ)
  | enhanceColor (i : PILImg) (factor : ℚ)
  | gradientRender (w h : ℕ) (g : GradientSettings)
  | overlayRender (w h : ℕ) (layer : OverlayLayer)
  | textRender (w h : ℕ) (layer : TextLayer)
  | imageRender (w h : ℕ) (layer : ImageLayer)
deriving DecidableEq

/-- The scene model held by `ThumbnailDesigner`: the background plus the
three layer collections and the paint order. -/
structure Scene where
  background : BackgroundSettings
  text_layers : List TextLayer
  image_layers : List ImageLayer
  overlay_layers : List OverlayLayer
  layer_order : List (String × String)

/-- Source `_apply_background_corrections`: brightness, then contrast, then
saturation, each skipped when its factor is exactly `1.0`. -/
def apply_background_corrections (bg : BackgroundSettings) (img : PILImg) : PILImg :=
  let i1 := if bg.brightness ≠ 1 then PILImg.enhanceBrightness img bg.brightness else img
  let i2 := if bg.contrast ≠ 1 then PILImg.enhanceContrast i1 bg.contrast else i1
  if bg.saturation ≠ 1 then PILImg.enhanceColor i2 bg.saturation else i2

/-- Source `_render_gradient_background` at the compositor level: draw the
gradient, then apply corrections. -/
def render_gradient_background (W H : ℕ) (bg : BackgroundSettings) : PILImg :=
  apply_background_corrections bg (PILImg.gradientRender W H bg.gradient)

/-- Source `_render_image_background`: start from a solid fill; if the path is
falsy (`None` or empty), does not exist, or `Image.open` raises
`OSError`, return the solid fill; otherwise cover-fit, optionally blur,
apply corrections and composite over the solid fill. -/
def render_image_background (fs : String → FileRes) (W H : ℕ)
    (bg : BackgroundSettings) : PILImg :=
  let base := PILImg.new W H bg.solid_color
  match bg.image_path with
  | none => base
  | some p =>
    if p = "" then base
    else
      match fs p with
      | FileRes.missing => base
      | FileRes.unreadable => base
      | FileRes.ok =>
        let img := PILImg.fit (PILImg.fromFile p) W H
        let img := if 0 < bg.blur_radius then PILImg.gaussianBlur img bg.blur_radius else img
        let img := apply_background_corrections bg img
        PILImg.alphaComposite base img

/-- Source `ensure_font_path`: raises `FileNotFoundError` when the font file is
not present (the set of available font files is `fonts`). -/
def ensure_font_path (fonts : List String) (font_file : String) : Except String String :=
  if font_file ∈ fonts then Except.ok font_file
  else Except.error ("Missing font file: " ++ font_file)

/-- Source `_render_text_layer` at the compositor level: it first calls
`ensure_font_path` (whose exception propagates), then rasterizes the
layer. -/
def render_text_layer (fonts : List String) (W H : ℕ) (layer : TextLayer) :
    Except String PILImg :=
  (ensure_font_path fonts layer.font_file).map fun _ => PILImg.textRender W H layer

/-- One iteration of the `render_thumbnail` paint loop: resolve the
`(layer_type, layer_id)` entry against the scene's collections, skip it
when it does not resolve (or when an image layer has a falsy path), and
otherwise alpha-composite the rendered layer onto the accumulator. -/
def resolveStep (fonts : List String) (W H : ℕ) (s : Scene) (acc : PILImg)
    (e : String × String) : Except String PILImg :=
  if e.1 = "overlay" then
    match s.overlay_layers.find? (fun l => l.id == e.2) with
    | some l => Except.ok (PILImg.alphaComposite acc (PILImg.overlayRender W H l))
    | none => Except.ok acc
  else if e.1 = "image" then
    match s.image_layers.find? (fun l => l.id == e.2) with
    | some l =>
      match l.image_path with
      | some p =>
        if p = "" then Except.ok acc
        else Except.ok (PILImg.alphaComposite acc (PILImg.imageRender W H l))
      | none => Except.ok acc
    | none => Except.ok acc
  else if e.1 = "text" then
    match s.text_layers.find? (fun l => l.id == e.2) with
    | some l => (render_text_layer fonts W H l).map fun img => PILImg.alphaComposite acc img
    | none => Except.ok acc
  else Except.ok acc

/-- Sequential composition of the paint loop, propagating the first
error. -/
def compositeFold (step : PILImg → (String × String) → Except String PILImg) :
    PILImg → List (String × String) → Except String PILImg
  | acc, [] => Except.ok acc
  | acc, e :: es =>
    match step acc e with
    | Except.error m => Except.error m
    | Except.ok acc' => compositeFold step acc' es

/-- Source `render_thumbnail`: base canvas, background by mode, then the paint
loop over `layer_order`. -/
def render_thumbnail (fs : String → FileRes) (fonts : List String) (W H : ℕ)
    (s : Scene) : Except String PILImg :=
  let base0 := PILImg.new W H "#111111"
  let bgLayer :=
    if s.background.mode = "solid" then PILImg.new W H s.background.solid_color
    else if s.background.mode = "gradient" then render_gradient_background W H s.background
    else render_image_background fs W H s.background
  compositeFold (resolveStep fonts W H s) (PILImg.alphaComposite base0 bgLayer) s.layer_order

/-- Whether a `(layer_type, layer_id)` order entry resolves to an
existing layer of that type in the given collections. -/
def layer_exists (tl : List TextLayer) (il : List ImageLayer) (ol : List OverlayLayer)
    (e : String × String) : Bool :=
  if e.1 = "overlay" then ol.any (fun l => l.id == e.2)
  else if e.1 = "image" then il.any (fun l => l.id == e.2)
  else if e.1 = "text" then tl.any (fun l => l.id == e.2)
  else false

/-! ## Text renderer: tracking and word wrap

Strings are modelled as `List Char` here because the wrap loop works
character by character (`split`, `strip`, concatenation). -/

/-- Python `sep.join(pieces)`. -/
def py_join (sep : List Char) : List (List Char) → List Char
  | [] => []
  | [x] => x
  | x :: y :: xs => x ++ sep ++ py_join sep (y :: xs)

/-- Source `_apply_tracking(text, tracking)`: unchanged when `tracking == 0`,
otherwise `(" " * max(0, tracking // 20)).join(list(text))` (Python `//`
is floor division). -/
def apply_tracking (text : List Char) (tracking : ℤ) : List Char :=
  if tracking = 0 then text
  else py_join (List.replicate (Int.toNat (max 0 (Int.fdiv tracking 20))) ' ')
    (text.map fun c => [c])

/-- Modelled from the spec's amended reading of tracking: insert exactly
`n` space characters between every pair of adjacent characters. -/
def spec_tracked (n : ℕ) : List Char → List Char
  | [] => []
  | [c] => [c]
  | c :: d :: rest => c :: (List.replicate n ' ' ++ spec_tracked n (d :: rest))

/-- Python `line.split(" ")`: split on single spaces, keeping empty
pieces (`"".split(" ") == [""]`). -/
def split_on_space : List Char → List (List Char)
  | [] => [[]]
  | c :: rest =>
    if c = ' ' then [] :: split_on_space rest
    else
      match split_on_space rest with
      | t :: ts => (c :: t) :: ts
      | [] => [[c]]

/-- Python `s.strip()`: drop leading and trailing whitespace. -/
def py_strip (l : List Char) : List Char :=
  ((l.dropWhile Char.isWhitespace).reverse.dropWhile Char.isWhitespace).reverse

/-- The non-empty space-separated words of a character list. -/
def words_ne (l : List Char) : List (List Char) :=
  (split_on_space l).filter (fun w => !w.isEmpty)

/-- The greedy packing loop of `_render_text_layer` over the words of
one line: `attempt = f"{current_line} {word}".strip()`; if the measured
attempt fits it becomes the current line, otherwise the current line is
committed (when non-empty) and the word starts a new line; after the
loop the current line is committed. -/
def wrap_words (fits : List Char → Bool) :
    List (List Char) → List Char → List (List Char) → List (List Char)
  | [], current, acc => acc ++ [current]
  | w :: ws, current, acc =>
    if fits (py_strip (current ++ ' ' :: w)) then
      wrap_words fits ws (py_strip (current ++ ' ' :: w)) acc
    else
      wrap_words fits ws w (if current = [] then acc else acc ++ [current])

/-- Per-line wrapping in `_render_text_layer`: a blank line (its `strip`
is empty) becomes one empty output line; otherwise the greedy loop runs
over `line.split(" ")` starting from an empty current line. -/
def wrap_line (fits : List Char → Bool) (line : List Char) : List (List Char) :=
  if py_strip line = [] then [[]]
  else wrap_words fits (split_on_space line) [] []

/-- The fit test of the wrap loop: the candidate line is measured with
tracking applied (`font.getbbox(self._apply_tracking(attempt,
layer.tracking))`) against `max_width_pixels`.  The font metric
`getbboxWidth` is abstract. -/
def line_fits (getbboxWidth : List Char → ℕ) (tracking : ℤ) (maxWidthPixels : ℤ)
    (s : List Char) : Bool :=
  (getbboxWidth (apply_tracking s tracking) : ℤ) ≤ maxWidthPixels

/-- Source `max_width_pixels = int(self.base_width * layer.max_width)`. -/
def max_width_pixels (W : ℕ) (max_width : ℚ) : ℤ :=
  pyInt ((W : ℚ) * max_width)

/-- The wrap step of `_render_text_layer` for one explicit input line,
with the measured fit test in place. -/
def wrap_line_measured (getbboxWidth : List Char → ℕ) (tracking : ℤ)
    (maxWidthPixels : ℤ) (line : List Char) : List (List Char) :=
  wrap_line (line_fits getbboxWidth tracking maxWidthPixels) line

/-! ## Concrete sample values (dataclass defaults) used by witnesses and
counterexamples -/

/-- Defaults of `GradientSettings()`. -/
def defaultGradient : GradientSettings :=
  { start_color := "#ff3838", end_color := "#ffcf00", direction := "horizontal" }

/-- Defaults of `ShadowSettings()`. -/
def defaultShadow : ShadowSettings :=
  { enabled := true, offset_x := 6, offset_y := 6, blur_radius := 12,
    color := "#000000", opacity := 6 / 10 }

/-- Defaults of `StrokeSettings()`. -/
def defaultStroke : StrokeSettings := { width := 6, color := "#ffffff" }

/-- A `TextLayer` with the dataclass default field values and id `"t1"`. -/
def defaultTextLayer : TextLayer :=
  { id := "t1", label := "Judul Utama", text := "Judul Thumbnail Menarik",
    font_file := "Montserrat-ExtraBold.ttf", font_size := 150, color := "#ffffff",
    align := "center", position_x := 1 / 2, position_y := 35 / 100,
    max_width := 9 / 10, tracking := 0, rotation := 0,
    shadow := defaultShadow, stroke := defaultStroke }

/-- An `ImageLayer` with the dataclass default field values and id `"i1"`. -/
def defaultImageLayer : ImageLayer :=
  { id := "i1", label := "Gambar", image_path := none, scale := 1, rotation := 0,
    position_x := 75 / 100, position_y := 65 / 100, opacity := 1,
    flip_horizontal := false, flip_vertical := false, add_shadow := true,
    shadow_blur := 24, shadow_offset_x := 0, shadow_offset_y := 12,
    shadow_opacity := 7 / 10 }

/-- An `OverlayLayer` with the dataclass default field values and id `"o1"`. -/
def defaultOverlayLayer : OverlayLayer :=
  { id := "o1", label := "Highlight", mode := "rectangle", color := "#ff3838",
    opacity := 85 / 100, position_x := 1 / 2, position_y := 3 / 10,
    width := 8 / 10, height := 25 / 100, blur_radius := 0, rotation := 0,
    rounded := 40 }

/-- An overlay layer whose opacity is outside `[0, 1]`. -/
def overlayOpacityTwo : OverlayLayer := { defaultOverlayLayer with opacity := 2 }

/-- A banner overlay centered on the canvas; at 1280×720 its pixel
height is 181. -/
def bannerSample : OverlayLayer :=
  { defaultOverlayLayer with
    mode := "banner", position_x := 1 / 2,
    position_y := 1 / 2, width := 1 / 2, height := 129 / 512 }

/-- A solid `#202020` background. -/
def solidBg : BackgroundSettings :=
  { mode := "solid", solid_color := "#202020", gradient := defaultGradient,
    image_path := none, blur_radius := 0, brightness := 1, contrast := 1,
    saturation := 1 }

/-- An image-mode background pointing at a nonexistent file. -/
def imageBgMissing : BackgroundSettings :=
  { solidBg with mode := "image", image_path := some "/missing.png" }

/-- A filesystem in which every path is missing. -/
def fsAllMissing : String → FileRes := fun _ => FileRes.missing

/-- The available fonts for witness scenes. -/
def fontsSample : List String := ["Montserrat-ExtraBold.ttf"]

/-- A text layer referencing a font file that is not available. -/
def badFontText : TextLayer := { defaultTextLayer with font_file := "Nope.ttf" }

/-! ## Helper lemmas -/

lemma pyInt_of_nonneg (q : ℚ) (h : 0 ≤ q) : pyInt q = Int.floor q := by
  rw [pyInt, if_neg (not_lt.mpr h)]

/-! ## C2: overlay opacity and the alpha byte -/

/-- C2 counterexample: for an overlay layer with opacity 2 the rendered
alpha byte is 255, not `opacity·255 = 510`: `hex_to_rgba` does clamp the
opacity into `[0, 1]`. -/
theorem overlay_fill_alpha_counterexample :
    (render_overlay_fill (255, 56, 56) overlayOpacityTwo).2.2.2 = 255
    ∧ pyInt (overlayOpacityTwo.opacity * 255) = 510
    ∧ (255 : ℤ) ≠ 510 := by
  refine ⟨?_, ?_, by norm_num⟩ <;>
    norm_num [render_overlay_fill, hex_to_rgba, clamp, pyInt,
      overlayOpacityTwo, defaultOverlayLayer]

/-- C2 (amended): the overlay fill alpha byte is
`int(clamp(opacity, 0, 1) * 255)`: it equals `int(opacity·255)` only for
opacity in `[0, 1]`; out-of-range opacities are clamped by
`hex_to_rgba`, reaching the renderer already saturated to 0 or 255. -/
theorem overlay_fill_alpha_clamped (rgb : ℤ × ℤ × ℤ) (layer : OverlayLayer) :
    (0 ≤ layer.opacity → layer.opacity ≤ 1 →
      (render_overlay_fill rgb layer).2.2.2 = pyInt (layer.opacity * 255))
    ∧ (1 < layer.opacity → (render_overlay_fill rgb layer).2.2.2 = 255)
    ∧ (layer.opacity < 0 → (render_overlay_fill rgb layer).2.2.2 = 0) := by
  refine ⟨fun h0 h1 => ?_, fun h => ?_, fun h => ?_⟩ <;>
    simp only [render_overlay_fill, hex_to_rgba, clamp]
  · rw [min_eq_left h1, max_eq_right h0]
  · rw [min_eq_right h.le, max_eq_right (zero_le_one : (0:ℚ) ≤ 1)]
    norm_num [pyInt]
  · rw [min_eq_left (h.le.trans (zero_le_one : (0:ℚ) ≤ 1)), max_eq_left h.le]
    norm_num [pyInt]

/-- Witness for C2's amended theorem at opacity 2. -/
theorem overlay_fill_alpha_clamped_witness :
    (1 : ℚ) < overlayOpacityTwo.opacity
    ∧ (render_overlay_fill (255, 56, 56) overlayOpacityTwo).2.2.2 = 255 :=
  ⟨by norm_num [overlayOpacityTwo, defaultOverlayLayer],
   (overlay_fill_alpha_clamped (255, 56, 56) overlayOpacityTwo).2.1
     (by norm_num [overlayOpacityTwo, defaultOverlayLayer])⟩

/-! ## C3: layer duplication -/

/-- C3 counterexample: duplicating the default text layer changes the
label to `"Judul Utama (copy)"`, so not every non-id field is copied
unchanged. -/
theorem duplicate_label_counterexample :
    (duplicate_text_layer "n1" defaultTextLayer).label = "Judul Utama (copy)"
    ∧ defaultTextLayer.label = "Judul Utama"
    ∧ ("Judul Utama (copy)" : String) ≠ "Judul Utama" :=
  ⟨by decide, rfl, by decide⟩

/-- C3 (amended): duplication of a text, image, or overlay layer takes
the freshly generated id, appends `" (copy)"` to the label, and copies
every remaining field unchanged. -/
theorem duplicate_copies_fields (fT fI fO : String)
    (t : TextLayer) (i : ImageLayer) (o : OverlayLayer)
    (ht : fT ≠ t.id) (hi : fI ≠ i.id) (ho : fO ≠ o.id) :
    ((duplicate_text_layer fT t).id = fT ∧ (duplicate_text_layer fT t).id ≠ t.id
      ∧ (duplicate_text_layer fT t).label = t.label ++ " (copy)"
      ∧ (duplicate_text_layer fT t).text = t.text
      ∧ (duplicate_text_layer fT t).font_file = t.font_file
      ∧ (duplicate_text_layer fT t).font_size = t.font_size
      ∧ (duplicate_text_layer fT t).color = t.color
      ∧ (duplicate_text_layer fT t).align = t.align
      ∧ (duplicate_text_layer fT t).position_x = t.position_x
      ∧ (duplicate_text_layer fT t).position_y = t.position_y
      ∧ (duplicate_text_layer fT t).max_width = t.max_width
      ∧ (duplicate_text_layer fT t).tracking = t.tracking
      ∧ (duplicate_text_layer fT t).rotation = t.rotation
      ∧ (duplicate_text_layer fT t).shadow = t.shadow
      ∧ (duplicate_text_layer fT t).stroke = t.stroke)
    ∧ ((duplicate_image_layer fI i).id = fI ∧ (duplicate_image_layer fI i).id ≠ i.id
      ∧ (duplicate_image_layer fI i).label = i.label ++ " (copy)"
      ∧ (duplicate_image_layer fI i).image_path = i.image_path
      ∧ (duplicate_image_layer fI i).scale = i.scale
      ∧ (duplicate_image_layer fI i).rotation = i.rotation
      ∧ (duplicate_image_layer fI i).position_x = i.position_x
      ∧ (duplicate_image_layer fI i).position_y = i.position_y
      ∧ (duplicate_image_layer fI i).opacity = i.opacity
      ∧ (duplicate_image_layer fI i).flip_horizontal = i.flip_horizontal
      ∧ (duplicate_image_layer fI i).flip_vertical = i.flip_vertical
      ∧ (duplicate_image_layer fI i).add_shadow = i.add_shadow
      ∧ (duplicate_image_layer fI i).shadow_blur = i.shadow_blur
      ∧ (duplicate_image_layer fI i).shadow_offset_x = i.shadow_offset_x
      ∧ (duplicate_image_layer fI i).shadow_offset_y = i.shadow_offset_y
      ∧ (duplicate_image_layer fI i).shadow_opacity = i.shadow_opacity)
    ∧ ((duplicate_overlay_layer fO o).id = fO ∧ (duplicate_overlay_layer fO o).id ≠ o.id
      ∧ (duplicate_overlay_layer fO o).label = o.label ++ " (copy)"
      ∧ (duplicate_overlay_layer fO o).mode = o.mode
      ∧ (duplicate_overlay_layer fO o).color = o.color
      ∧ (duplicate_overlay_layer fO o).opacity = o.opacity
      ∧ (duplicate_overlay_layer fO o).position_x = o.position_x
      ∧ (duplicate_overlay_layer fO o).position_y = o.position_y
      ∧ (duplicate_overlay_layer fO o).width = o.width
      ∧ (duplicate_overlay_layer fO o).height = o.height
      ∧ (duplicate_overlay_layer fO o).blur_radius = o.blur_radius
      ∧ (duplicate_overlay_layer fO o).rotation = o.rotation
      ∧ (duplicate_overlay_layer fO o).rounded = o.rounded) :=
  ⟨⟨rfl, ht, rfl, rfl, rfl, rfl, rfl, rfl, rfl, rfl, rfl, rfl, rfl, rfl, rfl⟩,
   ⟨rfl, hi, rfl, rfl, rfl, rfl, rfl, rfl, rfl, rfl, rfl, rfl, rfl, rfl, rfl, rfl⟩,
   ⟨rfl, ho, rfl, rfl, rfl, rfl, rfl, rfl, rfl, rfl, rfl, rfl, rfl⟩⟩

/-- Witness for C3's amended theorem at the default layers. -/
theorem duplicate_copies_fields_witness :
    ("n1" : String) ≠ defaultTextLayer.id
    ∧ (duplicate_text_layer "n1" defaultTextLayer).id ≠ defaultTextLayer.id :=
  ⟨by decide,
   (duplicate_copies_fields "n1" "n2" "n3" defaultTextLayer defaultImageLayer
     defaultOverlayLayer (by decide) (by decide) (by decide)).1.2.1⟩

/-! ## C5: tracking -/

lemma py_join_singletons (n : ℕ) : ∀ text : List Char,
    py_join (List.replicate n ' ') (text.map fun c => [c]) = spec_tracked n text
  | [] => rfl
  | [c] => rfl
  | c :: d :: rest => by
    have ih := py_join_singletons n (d :: rest)
    simp only [List.map] at ih
    simp only [List.map, py_join, spec_tracked, ih]
    simp

/-- C5 counterexample: at tracking −40 the code leaves `"ab"` unchanged
(it inserts `max(0, −40 // 20) = 0` spaces), while the claimed count
`floor(−40/20) = −2` is not a possible number of inserted spaces. -/
theorem apply_tracking_counterexample :
    apply_tracking "ab".data (-40) = "ab".data
    ∧ ¬ ∃ n : ℕ, (n : ℤ) = Int.fdiv (-40) 20
        ∧ apply_tracking "ab".data (-40) = spec_tracked n "ab".data := by
  refine ⟨by decide, ?_⟩
  rintro ⟨n, hn, -⟩
  have h : Int.fdiv (-40 : ℤ) 20 = -2 := by decide
  rw [h] at hn
  omega

/-- C5 (amended): when tracking ≠ 0 the renderer inserts exactly
`max(0, floor(tracking/20))` literal spaces between every pair of
adjacent characters, and leaves the line unchanged when tracking = 0. -/
theorem apply_tracking_spaces (text : List Char) (tracking : ℤ) :
    (tracking ≠ 0 → apply_tracking text tracking
        = spec_tracked (Int.toNat (max 0 (Int.fdiv tracking 20))) text)
    ∧ (tracking = 0 → apply_tracking text tracking = text) := by
  constructor
  · intro h; rw [apply_tracking, if_neg h, py_join_singletons]
  · intro h; rw [apply_tracking, if_pos h]

/-- Witness for C5's amended theorem: tracking 40 inserts two spaces. -/
theorem apply_tracking_spaces_witness :
    ((40 : ℤ) ≠ 0) ∧ apply_tracking "ab".data 40 = spec_tracked 2 "ab".data := by
  refine ⟨by decide, ?_⟩
  have h := (apply_tracking_spaces "ab".data 40).1 (by decide)
  have h2 : Int.toNat (max 0 (Int.fdiv 40 20)) = 2 := by decide
  rwa [h2] at h

/-! ## C9: diagonal gradient ratio -/

/-- C9 counterexample: at 1280×720 with start `#ffffff` and end
`#000000` (alpha 255 on both) the far-corner pixel of the diagonal
gradient is exactly the end color, even though the ratio is below 1:
`int()` truncation lands on the end value. -/
theorem diagonal_far_corner_counterexample :
    diagonal_pixel (255, 255, 255, 255) (0, 0, 0, 255) 1280 720 1279 719
      = (0, 0, 0, 255)
    ∧ diagonal_ratio 1280 720 1279 719 < 1 := by
  constructor
  · norm_num [diagonal_pixel, gradient_channel, diagonal_ratio, pyInt, Prod.ext_iff]
  · norm_num [diagonal_ratio]

/-- C9 (amended): every diagonal-gradient pixel uses ratio
`(x+y)/(W+H)`, which is strictly below 1 at the far corner `(W−1, H−1)`;
hence every channel whose end value exceeds its start value stays
strictly below the end value there (but truncation can still reach the
end color when a channel decreases, as the counterexample shows). -/
theorem diagonal_corner_ratio (W H : ℕ) (hW : 1 ≤ W) (hH : 1 ≤ H) :
    diagonal_ratio W H (W - 1) (H - 1) < 1
    ∧ ∀ s e : ℤ, 0 ≤ s → s < e →
        gradient_channel s e (diagonal_ratio W H (W - 1) (H - 1)) < e := by
  have hWq : (1 : ℚ) ≤ (W : ℚ) := by exact_mod_cast hW
  have hHq : (1 : ℚ) ≤ (H : ℚ) := by exact_mod_cast hH
  have hden : (0 : ℚ) < (W : ℚ) + (H : ℚ) := by linarith
  have hw : ((W - 1 : ℕ) : ℚ) = (W : ℚ) - 1 := by
    have := Nat.cast_sub (R := ℚ) hW; simpa using this
  have hh : ((H - 1 : ℕ) : ℚ) = (H : ℚ) - 1 := by
    have := Nat.cast_sub (R := ℚ) hH; simpa using this
  have hr1 : diagonal_ratio W H (W - 1) (H - 1) < 1 := by
    rw [diagonal_ratio, div_lt_one hden, hw, hh]
    linarith
  have hr0 : 0 ≤ diagonal_ratio W H (W - 1) (H - 1) := by
    rw [diagonal_ratio]
    positivity
  refine ⟨hr1, fun s e hs hse => ?_⟩
  have hsq : (0 : ℚ) ≤ (s : ℚ) := by exact_mod_cast hs
  have hseq : (s : ℚ) < (e : ℚ) := by exact_mod_cast hse
  have hval : (0 : ℚ) ≤ (s : ℚ) + ((e : ℚ) - s) * diagonal_ratio W H (W - 1) (H - 1) := by
    have := mul_nonneg (by linarith : (0:ℚ) ≤ (e : ℚ) - s) hr0
    linarith
  rw [gradient_channel, pyInt, if_neg (not_lt.mpr hval), Int.floor_lt]
  have h2 : ((e : ℚ) - s) * diagonal_ratio W H (W - 1) (H - 1) < ((e : ℚ) - s) * 1 :=
    mul_lt_mul_of_pos_left hr1 (by linarith)
  linarith

/-- Witness for C9's amended theorem at 1280×720 with channel 0 → 255. -/
theorem diagonal_corner_ratio_witness :
    diagonal_ratio 1280 720 (1280 - 1) (720 - 1) < 1
    ∧ gradient_channel 0 255 (diagonal_ratio 1280 720 (1280 - 1) (720 - 1)) < 255 := by
  have h := diagonal_corner_ratio 1280 720 (by norm_num) (by norm_num)
  exact ⟨h.1, h.2 0 255 (by norm_num) (by norm_num)⟩

/-! ## C8: image background fallback -/

/-- C8: with an absent, empty, missing, or unreadable background image
path, `_render_image_background` returns the solid-color fill and no
error value: the fallback is silent. -/
theorem image_background_fallback (fs : String → FileRes) (W H : ℕ)
    (bg : BackgroundSettings)
    (h : bg.image_path = none ∨ bg.image_path = some ""
        ∨ ∃ p, bg.image_path = some p
            ∧ (fs p = FileRes.missing ∨ fs p = FileRes.unreadable)) :
    render_image_background fs W H bg = PILImg.new W H bg.solid_color := by
  rcases h with h | h | ⟨p, hp, hfs⟩
  · simp [render_image_background, h]
  · simp [render_image_background, h]
  · by_cases hpe : p = ""
    · simp [render_image_background, hp, hpe]
    · rcases hfs with hfs | hfs <;> simp [render_image_background, hp, hpe, hfs]

/-- Witness for C8 at a concrete background whose path does not exist. -/
theorem image_background_fallback_witness :
    imageBgMissing.image_path = some "/missing.png"
    ∧ render_image_background fsAllMissing 1280 720 imageBgMissing
        = PILImg.new 1280 720 imageBgMissing.solid_color :=
  ⟨rfl, image_background_fallback fsAllMissing 1280 720 imageBgMissing
    (Or.inr (Or.inr ⟨"/missing.png", rfl, Or.inl rfl⟩))⟩

/-! ## C1: banner shape geometry -/

lemma pyInt_mul_25_100 (h : ℤ) (hh : 0 ≤ h) :
    pyInt ((h : ℚ) * (25 / 100)) = h / 4 := by
  have hq : (h : ℚ) * (25 / 100) = ((h : ℤ) : ℚ) / ((4 : ℕ) : ℚ) := by
    push_cast; ring
  have h0 : (0 : ℚ) ≤ ((h : ℤ) : ℚ) / ((4 : ℕ) : ℚ) :=
    div_nonneg (by exact_mod_cast hh) (by norm_num)
  rw [hq, pyInt_of_nonneg _ h0, Rat.floor_intCast_div_natCast]
  norm_num

lemma pyInt_mul_35_100 (h : ℤ) (hh : 0 ≤ h) :
    pyInt ((h : ℚ) * (35 / 100)) = 7 * h / 20 := by
  have hq : (h : ℚ) * (35 / 100) = ((7 * h : ℤ) : ℚ) / ((20 : ℕ) : ℚ) := by
    push_cast; ring
  have h0 : (0 : ℚ) ≤ ((7 * h : ℤ) : ℚ) / ((20 : ℕ) : ℚ) := by
    apply div_nonneg _ (by norm_num)
    exact_mod_cast mul_nonneg (by norm_num : (0:ℤ) ≤ 7) hh
  rw [hq, pyInt_of_nonneg _ h0, Rat.floor_intCast_div_natCast]
  norm_num

/-- C1 counterexample: for a centered banner whose pixel height is 181,
the flags' upper vertices sit at y = 387, strictly above the rounded
rectangle's bottom edge y = 405 (the 75% line): `triangle_height =
int(0.35·height)` exceeds the 25% remainder. -/
theorem banner_flags_counterexample :
    (render_overlay_banner 1280 720 bannerSample).tri1
      = [(320, 387), (480, 450), (640, 387)]
    ∧ (render_overlay_banner 1280 720 bannerSample).bannerRect = (320, 270, 960, 405)
    ∧ (387 : ℤ) < 405 := by
  have e1 : overlay_px_w 1280 bannerSample = 640 := by
    norm_num [overlay_px_w, bannerSample, defaultOverlayLayer, pyInt]
  have e2 : overlay_px_h 720 bannerSample = 181 := by
    norm_num [overlay_px_h, bannerSample, defaultOverlayLayer, pyInt]
  have e3 : overlay_px_x 1280 bannerSample = 640 := by
    norm_num [overlay_px_x, bannerSample, defaultOverlayLayer, pyInt]
  have e4 : overlay_px_y 720 bannerSample = 360 := by
    norm_num [overlay_px_y, bannerSample, defaultOverlayLayer, pyInt]
  have er : overlay_rect 1280 720 bannerSample = (320, 270, 960, 450) := by
    rw [overlay_rect, e1, e2, e3, e4]
    norm_num [show Int.fdiv (640:ℤ) 2 = 320 from by decide,
      show Int.fdiv (181:ℤ) 2 = 90 from by decide]
  have e25 : pyInt (((181 : ℤ) : ℚ) * (25 / 100)) = 45 := by norm_num [pyInt]
  have e35 : pyInt (((181 : ℤ) : ℚ) * (35 / 100)) = 63 := by norm_num [pyInt]
  refine ⟨?_, ?_, by norm_num⟩ <;>
    simp only [render_overlay_banner, e1, e2, er, e25, e35] <;>
    norm_num [show Int.fdiv (640:ℤ) 4 = 160 from by decide,
      show Int.fdiv (640:ℤ) 2 = 320 from by decide]

/-- C1 (amended): the banner is the rounded rectangle spanning the top
of the pixel rect down to `rect.bottom − ⌊h/4⌋` (the top 75%), plus two
flags of height `⌊0.35·h⌋` (not 25%): the left flag runs from the left
edge to the horizontal midpoint with its apex on the bottom edge at the
left quarter point, the right flag mirrors it, and both flags' upper
vertices lie strictly above the 75% line, overlapping the rectangle. -/
theorem banner_geometry (W H : ℕ) (layer : OverlayLayer)
    (hh : 10 ≤ overlay_px_h H layer) :
    (render_overlay_banner W H layer).bannerRect
      = ((overlay_rect W H layer).1, (overlay_rect W H layer).2.1,
         (overlay_rect W H layer).2.2.1,
         (overlay_rect W H layer).2.2.2 - overlay_px_h H layer / 4)
    ∧ (render_overlay_banner W H layer).tri1
      = [((overlay_rect W H layer).1,
          (overlay_rect W H layer).2.2.2 - 7 * overlay_px_h H layer / 20),
         ((overlay_rect W H layer).1 + overlay_px_w W layer / 4,
          (overlay_rect W H layer).2.2.2),
         ((overlay_rect W H layer).1 + overlay_px_w W layer / 2,
          (overlay_rect W H layer).2.2.2 - 7 * overlay_px_h H layer / 20)]
    ∧ (render_overlay_banner W H layer).tri2
      = [((overlay_rect W H layer).2.2.1,
          (overlay_rect W H layer).2.2.2 - 7 * overlay_px_h H layer / 20),
         ((overlay_rect W H layer).2.2.1 - overlay_px_w W layer / 4,
          (overlay_rect W H layer).2.2.2),
         ((overlay_rect W H layer).2.2.1 - overlay_px_w W layer / 2,
          (overlay_rect W H layer).2.2.2 - 7 * overlay_px_h H layer / 20)]
    ∧ (overlay_rect W H layer).2.2.2 - 7 * overlay_px_h H layer / 20
        < (overlay_rect W H layer).2.2.2 - overlay_px_h H layer / 4
    ∧ (overlay_rect W H layer).2.2.2 - overlay_px_h H layer / 4
        < (overlay_rect W H layer).2.2.2 := by
  have h0 : (0:ℤ) ≤ overlay_px_h H layer := by linarith
  have e25 := pyInt_mul_25_100 (overlay_px_h H layer) h0
  have e35 := pyInt_mul_35_100 (overlay_px_h H layer) h0
  have ef4 : ∀ a : ℤ, Int.fdiv a 4 = a / 4 := fun a =>
    Int.fdiv_eq_ediv a (by norm_num)
  have ef2 : ∀ a : ℤ, Int.fdiv a 2 = a / 2 := fun a =>
    Int.fdiv_eq_ediv a (by norm_num)
  refine ⟨?_, ?_, ?_, ?_, ?_⟩
  · simp only [render_overlay_banner, e25]
  · simp only [render_overlay_banner, e35, ef4, ef2]
  · simp only [render_overlay_banner, e35, ef4, ef2]
  · set h := overlay_px_h H layer with hdef
    set r3 := (overlay_rect W H layer).2.2.2 with r3def
    omega
  · set h := overlay_px_h H layer with hdef
    set r3 := (overlay_rect W H layer).2.2.2 with r3def
    omega

/-- Witness for C1's amended theorem at the sample banner layer. -/
theorem banner_geometry_witness :
    10 ≤ overlay_px_h 720 bannerSample
    ∧ (overlay_rect 1280 720 bannerSample).2.2.2
        - 7 * overlay_px_h 720 bannerSample / 20
      < (overlay_rect 1280 720 bannerSample).2.2.2
        - overlay_px_h 720 bannerSample / 4 := by
  have hh : (10:ℤ) ≤ overlay_px_h 720 bannerSample := by
    norm_num [overlay_px_h, bannerSample, defaultOverlayLayer, pyInt]
  exact ⟨hh, (banner_geometry 1280 720 bannerSample hh).2.2.2.1⟩

/-! ## C6: stale layer-order entries -/

lemma find?_eq_none_of_any_eq_false {α : Type} {p : α → Bool} {l : List α}
    (h : l.any p = false) : l.find? p = none := by
  rw [List.find?_eq_none]
  intro x hx
  rw [List.any_eq_false] at h
  exact h x hx

lemma resolveStep_stale (fonts : List String) (W H : ℕ) (s : Scene) (acc : PILImg)
    (e : String × String)
    (h : layer_exists s.text_layers s.image_layers s.overlay_layers e = false) :
    resolveStep fonts W H s acc e = Except.ok acc := by
  unfold layer_exists at h
  unfold resolveStep
  by_cases h1 : e.1 = "overlay"
  · rw [if_pos h1] at h
    rw [if_pos h1, find?_eq_none_of_any_eq_false h]
  · rw [if_neg h1] at h
    rw [if_neg h1]
    by_cases h2 : e.1 = "image"
    · rw [if_pos h2] at h
      rw [if_pos h2, find?_eq_none_of_any_eq_false h]
    · rw [if_neg h2] at h
      rw [if_neg h2]
      by_cases h3 : e.1 = "text"
      · rw [if_pos h3] at h
        rw [if_pos h3, find?_eq_none_of_any_eq_false h]
      · rw [if_neg h3]

lemma compositeFold_skip (step : PILImg → (String × String) → Except String PILImg)
    (e : String × String) (hstep : ∀ acc, step acc e = Except.ok acc) :
    ∀ (pre post : List (String × String)) (acc : PILImg),
      compositeFold step acc (pre ++ e :: post)
        = compositeFold step acc (pre ++ post) := by
  intro pre
  induction pre with
  | nil =>
    intro post acc
    simp only [List.nil_append, compositeFold, hstep acc]
  | cons p pre ih =>
    intro post acc
    simp only [List.cons_append, compositeFold]
    cases step acc p with
    | error m => rfl
    | ok acc' => exact ih post acc'

/-- C6: a layer-order entry whose id does not resolve to an existing
layer of its type is skipped: the render result with the stale entry
anywhere in the order equals the result without it (no error is raised
for it, and it contributes nothing to the composite). -/
theorem stale_entry_skipped (fs : String → FileRes) (fonts : List String) (W H : ℕ)
    (bg : BackgroundSettings) (tl : List TextLayer) (il : List ImageLayer)
    (ol : List OverlayLayer) (e : String × String)
    (pre post : List (String × String))
    (h : layer_exists tl il ol e = false) :
    render_thumbnail fs fonts W H ⟨bg, tl, il, ol, pre ++ e :: post⟩
      = render_thumbnail fs fonts W H ⟨bg, tl, il, ol, pre ++ post⟩ := by
  unfold render_thumbnail
  exact compositeFold_skip _ e
    (fun acc => resolveStep_stale fonts W H ⟨bg, tl, il, ol, pre ++ e :: post⟩ acc e h)
    pre post _

/-- Witness for C6 on a one-overlay scene with a ghost entry. -/
theorem stale_entry_skipped_witness :
    layer_exists [] [] [defaultOverlayLayer] ("overlay", "ghost") = false
    ∧ render_thumbnail fsAllMissing fontsSample 1280 720
        ⟨solidBg, [], [], [defaultOverlayLayer], [("overlay", "ghost")]⟩
      = render_thumbnail fsAllMissing fontsSample 1280 720
        ⟨solidBg, [], [], [defaultOverlayLayer], []⟩ :=
  ⟨by decide,
   stale_entry_skipped fsAllMissing fontsSample 1280 720 solidBg [] []
     [defaultOverlayLayer] ("overlay", "ghost") [] [] (by decide)⟩

/-! ## C7: unresolvable fonts abort the render -/

lemma compositeFold_error (step : PILImg → (String × String) → Except String PILImg)
    (e : String × String)
    (hstep : ∀ acc, ∃ m, step acc e = Except.error m) :
    ∀ (es : List (String × String)), e ∈ es →
      ∀ acc, ∃ m, compositeFold step acc es = Except.error m := by
  intro es
  induction es with
  | nil => intro he; cases he
  | cons a es ih =>
    intro he acc
    rcases List.mem_cons.mp he with rfl | htail
    · obtain ⟨m, hm⟩ := hstep acc
      exact ⟨m, by simp only [compositeFold, hm]⟩
    · cases hsa : step acc a with
      | error m => exact ⟨m, by simp only [compositeFold, hsa]⟩
      | ok acc' =>
        obtain ⟨m, hm⟩ := ih htail acc'
        exact ⟨m, by simp only [compositeFold, hsa, hm]⟩

/-- C7: when the paint order reaches a text layer whose font file is not
available, `ensure_font_path`'s error propagates and the whole render
invocation returns an error — no silent font substitution. -/
theorem missing_font_aborts (fs : String → FileRes) (fonts : List String) (W H : ℕ)
    (bg : BackgroundSettings) (tl : List TextLayer) (il : List ImageLayer)
    (ol : List OverlayLayer) (order : List (String × String))
    (tid : String) (layer : TextLayer)
    (hmem : ("text", tid) ∈ order)
    (hfind : tl.find? (fun l => l.id == tid) = some layer)
    (hfont : layer.font_file ∉ fonts) :
    ∃ m, render_thumbnail fs fonts W H ⟨bg, tl, il, ol, order⟩ = Except.error m := by
  unfold render_thumbnail
  refine compositeFold_error _ ("text", tid) (fun acc => ?_) order hmem _
  refine ⟨"Missing font file: " ++ layer.font_file, ?_⟩
  unfold resolveStep
  rw [if_neg (by decide : ¬ ("text" : String) = "overlay"),
    if_neg (by decide : ¬ ("text" : String) = "image"),
    if_pos (rfl : ("text" : String) = "text")]
  dsimp only
  rw [hfind]
  simp [render_text_layer, ensure_font_path, hfont, Except.map]

/-- Witness for C7 on a one-text-layer scene with an unavailable font. -/
theorem missing_font_aborts_witness :
    (("text", "t1") ∈ [(("text" : String), ("t1" : String))])
    ∧ badFontText.font_file ∉ fontsSample
    ∧ ∃ m, render_thumbnail fsAllMissing fontsSample 1280 720
        ⟨solidBg, [badFontText], [], [], [("text", "t1")]⟩ = Except.error m :=
  ⟨by decide, by decide,
   missing_font_aborts fsAllMissing fontsSample 1280 720 solidBg [badFontText] [] []
     [("text", "t1")] "t1" badFontText (by decide) rfl (by decide)⟩

/-! ## C4 and C10: word wrap -/

lemma wrap_words_nil (fits : List Char → Bool) (current : List Char)
    (acc : List (List Char)) : wrap_words fits [] current acc = acc ++ [current] := rfl

lemma wrap_words_cons (fits : List Char → Bool) (w : List Char) (ws : List (List Char))
    (current : List Char) (acc : List (List Char)) :
    wrap_words fits (w :: ws) current acc
      = if fits (py_strip (current ++ ' ' :: w)) then
          wrap_words fits ws (py_strip (current ++ ' ' :: w)) acc
        else wrap_words fits ws w (if current = [] then acc else acc ++ [current]) := rfl

lemma split_on_space_ne_nil (l : List Char) : split_on_space l ≠ [] := by
  induction l with
  | nil => simp [split_on_space]
  | cons c rest ih =>
    rw [split_on_space]
    by_cases hc : c = ' '
    · simp [hc]
    · rw [if_neg hc]
      cases hs : split_on_space rest with
      | nil => simp
      | cons t ts => simp

lemma split_on_space_cons_space (l : List Char) :
    split_on_space (' ' :: l) = [] :: split_on_space l := by
  rw [split_on_space, if_pos rfl]

lemma split_on_space_cons_ne (c : Char) (l : List Char) (hc : ¬ c = ' ') :
    split_on_space (c :: l)
      = match split_on_space l with
        | t :: ts => (c :: t) :: ts
        | [] => [[c]] := by
  rw [split_on_space, if_neg hc]

lemma split_on_space_append (a b : List Char) :
    split_on_space (a ++ ' ' :: b) = split_on_space a ++ split_on_space b := by
  induction a with
  | nil =>
    rw [List.nil_append, split_on_space_cons_space]
    rfl
  | cons c a ih =>
    by_cases hc : c = ' '
    · subst hc
      rw [List.cons_append, split_on_space_cons_space, split_on_space_cons_space,
        ih, List.cons_append]
    · rw [List.cons_append, split_on_space_cons_ne c _ hc,
        split_on_space_cons_ne c _ hc, ih]
      rcases hsp : split_on_space a with _ | ⟨t, ts⟩
      · exact absurd hsp (split_on_space_ne_nil a)
      · rfl

lemma mem_split_on_space_no_space (l : List Char) :
    ∀ w ∈ split_on_space l, ' ' ∉ w := by
  induction l with
  | nil =>
    intro w hw
    simp [split_on_space] at hw
    subst hw
    simp
  | cons c rest ih =>
    intro w hw
    rw [split_on_space] at hw
    by_cases hc : c = ' '
    · rw [if_pos hc] at hw
      rcases List.mem_cons.mp hw with rfl | h
      · simp
      · exact ih w h
    · rw [if_neg hc] at hw
      cases hs : split_on_space rest with
      | nil => exact absurd hs (split_on_space_ne_nil rest)
      | cons t ts =>
        rw [hs] at hw
        rcases List.mem_cons.mp hw with rfl | h
        · intro hmem
          rcases List.mem_cons.mp hmem with h1 | h1
          · exact hc h1.symm
          · exact ih t (hs ▸ List.mem_cons_self t ts) h1
        · exact ih w (hs ▸ List.mem_cons_of_mem t h)

lemma mem_split_on_space_mem (l : List Char) :
    ∀ w ∈ split_on_space l, ∀ c ∈ w, c ∈ l := by
  induction l with
  | nil =>
    intro w hw c hc
    simp [split_on_space] at hw
    subst hw
    simp at hc
  | cons a rest ih =>
    intro w hw c hc
    rw [split_on_space] at hw
    by_cases ha : a = ' '
    · rw [if_pos ha] at hw
      rcases List.mem_cons.mp hw with rfl | h
      · simp at hc
      · exact List.mem_cons_of_mem a (ih w h c hc)
    · rw [if_neg ha] at hw
      cases hs : split_on_space rest with
      | nil => exact absurd hs (split_on_space_ne_nil rest)
      | cons t ts =>
        rw [hs] at hw
        rcases List.mem_cons.mp hw with rfl | h
        · rcases List.mem_cons.mp hc with rfl | h1
          · exact List.mem_cons_self _ _
          · exact List.mem_cons_of_mem a (ih t (hs ▸ List.mem_cons_self t ts) c h1)
        · exact List.mem_cons_of_mem a (ih w (hs ▸ List.mem_cons_of_mem t h) c hc)

lemma split_on_space_no_space (w : List Char) (h : ' ' ∉ w) :
    split_on_space w = [w] := by
  induction w with
  | nil => rfl
  | cons c rest ih =>
    have hc : ¬ c = ' ' := by
      rintro rfl
      exact h (List.mem_cons_self _ _)
    rw [split_on_space, if_neg hc, ih (fun hm => h (List.mem_cons_of_mem c hm))]

lemma words_ne_cons_space (l : List Char) : words_ne (' ' :: l) = words_ne l := by
  simp [words_ne, split_on_space]

lemma words_ne_append_cons (a b : List Char) :
    words_ne (a ++ ' ' :: b) = words_ne a ++ words_ne b := by
  simp [words_ne, split_on_space_append, List.filter_append]

lemma words_ne_append_space (l : List Char) :
    words_ne (l ++ [' ']) = words_ne l := by
  have h := words_ne_append_cons l []
  rw [show words_ne [] = [] from rfl, List.append_nil] at h
  exact h

lemma words_ne_dropWhile (l : List Char) (h : ∀ c ∈ l, c.isWhitespace → c = ' ') :
    words_ne (l.dropWhile Char.isWhitespace) = words_ne l := by
  induction l with
  | nil => rfl
  | cons c rest ih =>
    by_cases hw : c.isWhitespace
    · have hc : c = ' ' := h c (List.mem_cons_self _ _) hw
      subst hc
      rw [List.dropWhile_cons, if_pos hw, words_ne_cons_space]
      exact ih (fun x hx => h x (List.mem_cons_of_mem _ hx))
    · rw [List.dropWhile_cons, if_neg hw]

lemma words_ne_strip_rev (l : List Char) (h : ∀ c ∈ l, c.isWhitespace → c = ' ') :
    words_ne ((l.reverse.dropWhile Char.isWhitespace).reverse) = words_ne l := by
  induction l using List.reverseRecOn with
  | nil => rfl
  | append_singleton l c ih =>
    by_cases hw : c.isWhitespace
    · have hc : c = ' ' := h c (by simp) hw
      subst hc
      rw [List.reverse_append]
      simp only [List.reverse_cons, List.reverse_nil, List.nil_append,
        List.singleton_append]
      rw [List.dropWhile_cons, if_pos hw]
      rw [words_ne_append_space]
      exact ih (fun x hx => h x (by simp [hx]))
    · rw [List.reverse_append]
      simp only [List.reverse_cons, List.reverse_nil, List.nil_append,
        List.singleton_append]
      rw [List.dropWhile_cons, if_neg hw]
      simp

lemma mem_py_strip {c : Char} {l : List Char} (h : c ∈ py_strip l) : c ∈ l := by
  rw [py_strip] at h
  have h1 := List.mem_reverse.mp h
  have h2 := (List.dropWhile_sublist _).subset h1
  have h3 := List.mem_reverse.mp h2
  exact (List.dropWhile_sublist _).subset h3

lemma words_ne_py_strip (l : List Char) (h : ∀ c ∈ l, c.isWhitespace → c = ' ') :
    words_ne (py_strip l) = words_ne l := by
  rw [py_strip]
  have h1 : ∀ c ∈ l.dropWhile Char.isWhitespace, c.isWhitespace → c = ' ' :=
    fun c hc => h c ((List.dropWhile_sublist _).subset hc)
  rw [words_ne_strip_rev _ h1, words_ne_dropWhile _ h]

lemma flatMap_words_ne_split (l : List Char) :
    (split_on_space l).flatMap words_ne = words_ne l := by
  have key : ∀ ts : List (List Char), (∀ w ∈ ts, ' ' ∉ w) →
      ts.flatMap words_ne = ts.filter (fun w => !w.isEmpty) := by
    intro ts
    induction ts with
    | nil => intro _; rfl
    | cons w ts ih =>
      intro hts
      rw [List.flatMap_cons, ih (fun x hx => hts x (List.mem_cons_of_mem _ hx))]
      have hw : ' ' ∉ w := hts w (List.mem_cons_self _ _)
      cases w with
      | nil => simp [words_ne, split_on_space]
      | cons c cs =>
        rw [words_ne, split_on_space_no_space _ hw]
        simp [List.filter]
  rw [key (split_on_space l) (mem_split_on_space_no_space l)]
  rfl

lemma wrap_words_flat (fits : List Char → Bool) :
    ∀ (ws : List (List Char)), (∀ w ∈ ws, ∀ c ∈ w, c.isWhitespace → c = ' ') →
    ∀ (current : List Char), (∀ c ∈ current, c.isWhitespace → c = ' ') →
    ∀ (acc : List (List Char)),
      (wrap_words fits ws current acc).flatMap words_ne
        = acc.flatMap words_ne ++ words_ne current ++ ws.flatMap words_ne := by
  intro ws
  induction ws with
  | nil =>
    intro _ current _ acc
    simp [wrap_words_nil]
  | cons w ws ih =>
    intro hws current hcur acc
    have hw : ∀ c ∈ w, c.isWhitespace → c = ' ' := hws w (List.mem_cons_self _ _)
    have hws' : ∀ x ∈ ws, ∀ c ∈ x, c.isWhitespace → c = ' ' :=
      fun x hx => hws x (List.mem_cons_of_mem _ hx)
    have hattc : ∀ c ∈ current ++ ' ' :: w, c.isWhitespace → c = ' ' := by
      intro c hc hcw
      rcases List.mem_append.mp hc with h | h
      · exact hcur c h hcw
      · rcases List.mem_cons.mp h with rfl | h
        · rfl
        · exact hw c h hcw
    have hatt : ∀ c ∈ py_strip (current ++ ' ' :: w), c.isWhitespace → c = ' ' :=
      fun c hc => hattc c (mem_py_strip hc)
    have hattw : words_ne (py_strip (current ++ ' ' :: w))
        = words_ne current ++ words_ne w := by
      rw [words_ne_py_strip _ hattc, words_ne_append_cons]
    rw [wrap_words_cons]
    by_cases hf : fits (py_strip (current ++ ' ' :: w)) = true
    · rw [if_pos hf, ih hws' _ hatt acc, hattw]
      simp [List.flatMap_cons, List.append_assoc]
    · rw [if_neg hf]
      by_cases hc : current = []
      · rw [if_pos hc, ih hws' w hw acc]
        subst hc
        simp [words_ne, split_on_space, List.flatMap_cons, List.append_assoc]
      · rw [if_neg hc, ih hws' w hw (acc ++ [current])]
        simp [List.flatMap_cons, List.flatMap_append, List.append_assoc]

/-- C10: the wrap step loses, duplicates, reorders, and splits no word:
the concatenated non-empty words of the output lines equal the non-empty
words of the input line (for lines whose whitespace is plain spaces,
matching what the surrounding `splitlines` produces). -/
theorem wrap_preserves_words (gw : List Char → ℕ) (tracking maxw : ℤ)
    (line : List Char) (h : ∀ c ∈ line, c.isWhitespace → c = ' ') :
    (wrap_line_measured gw tracking maxw line).flatMap words_ne = words_ne line := by
  rw [wrap_line_measured, wrap_line]
  by_cases hb : py_strip line = []
  · rw [if_pos hb]
    have h2 : words_ne line = [] := by
      have h3 := words_ne_py_strip line h
      rw [hb] at h3
      exact h3.symm
    rw [h2]
    rfl
  · rw [if_neg hb]
    rw [wrap_words_flat _ (split_on_space line)
      (fun w hw c hc => h c (mem_split_on_space_mem line w hw c hc)) []
      (by intro c hc; cases hc) []]
    simp [flatMap_words_ne_split, words_ne, split_on_space]

/-- Witness for C10 on `"foo bar"` with a length metric. -/
theorem wrap_preserves_words_witness :
    (∀ c ∈ "foo bar".data, c.isWhitespace → c = ' ')
    ∧ (wrap_line_measured List.length 0 3 "foo bar".data).flatMap words_ne
        = words_ne "foo bar".data :=
  ⟨by decide, wrap_preserves_words List.length 0 3 "foo bar".data (by decide)⟩

lemma dropWhile_eq_self (p : Char → Bool) (l : List Char)
    (h : ∀ c ∈ l, ¬ p c = true) : l.dropWhile p = l := by
  cases l with
  | nil => rfl
  | cons c rest => rw [List.dropWhile_cons, if_neg (h c (List.mem_cons_self _ _))]

lemma py_strip_no_whitespace (w : List Char) (h : ∀ c ∈ w, ¬ c.isWhitespace) :
    py_strip w = w := by
  rw [py_strip, dropWhile_eq_self _ _ h,
    dropWhile_eq_self _ _ (fun c hc => h c (List.mem_reverse.mp hc)),
    List.reverse_reverse]

lemma py_strip_space_cons (w : List Char) (h : ∀ c ∈ w, ¬ c.isWhitespace) :
    py_strip (' ' :: w) = w := by
  rw [py_strip, List.dropWhile_cons, if_pos (by decide : (' ').isWhitespace = true),
    dropWhile_eq_self _ _ h,
    dropWhile_eq_self _ _ (fun c hc => h c (List.mem_reverse.mp hc)),
    List.reverse_reverse]

/-- C4: the wrap is greedy: with a metric under which `"foo"` and
`"bar"` fit but `"foo bar"` does not, the line `"foo bar"` wraps to the
two lines `"foo"`, `"bar"`; and a single non-blank word that alone
exceeds the limit is kept on its own line unbroken. -/
theorem wrap_greedy (gw : List Char → ℕ) (tracking maxw : ℤ)
    (hfoo : line_fits gw tracking maxw "foo".data = true)
    (hbar : line_fits gw tracking maxw "bar".data = true)
    (hfoobar : line_fits gw tracking maxw "foo bar".data = false) :
    wrap_line_measured gw tracking maxw "foo bar".data = ["foo".data, "bar".data]
    ∧ ∀ w : List Char, w ≠ [] → (∀ c ∈ w, ¬ c.isWhitespace) →
        line_fits gw tracking maxw w = false →
        wrap_line_measured gw tracking maxw w = [w] := by
  constructor
  · rw [wrap_line_measured, wrap_line,
      if_neg (by decide : ¬ py_strip "foo bar".data = []),
      show split_on_space "foo bar".data = ["foo".data, "bar".data] from by decide,
      wrap_words_cons,
      show py_strip (([] : List Char) ++ ' ' :: "foo".data) = "foo".data from by decide,
      hfoo, if_pos rfl, wrap_words_cons,
      show py_strip ("foo".data ++ ' ' :: "bar".data) = "foo bar".data from by decide,
      hfoobar, if_neg (by simp), if_neg (by decide : ¬ "foo".data = ([] : List Char)),
      wrap_words_nil]
    rfl
  · intro w hne hnws hfits
    have hsp : ' ' ∉ w := fun hm => hnws ' ' hm (by decide)
    have hstrip : py_strip w = w := py_strip_no_whitespace w hnws
    rw [wrap_line_measured, wrap_line, if_neg (by rw [hstrip]; exact hne),
      split_on_space_no_space w hsp, wrap_words_cons]
    rw [show (([] : List Char) ++ ' ' :: w) = ' ' :: w from rfl,
      py_strip_space_cons w hnws, hfits, if_neg (by simp), if_pos rfl,
      wrap_words_nil]
    rfl

/-- Witness for C4 with the length metric and limit 3. -/
theorem wrap_greedy_witness :
    line_fits List.length 0 3 "foo".data = true
    ∧ wrap_line_measured List.length 0 3 "foo bar".data
        = ["foo".data, "bar".data] :=
  ⟨by decide, (wrap_greedy List.length 0 3 (by decide) (by decide) (by decide)).1⟩
